import Mathlib

/-!
# SynergySphere Insight Engine — verification of the dashboard analytics

Shallow embedding of the analytics logic of the SynergySphere frontend
(`AIDashboard`, `AITaskCard`, `ProjectDetail`/`addMember`).  Task status
strings `"To-Do"`, `"In Progress"`, `"Done"` become an inductive type;
dates become epoch-millisecond integers (a date-only string such as
`"2025-09-15"` parses in JavaScript to UTC midnight, i.e. a multiple of
86400000); numeric rates become exact rationals (`toFixed(1)` is display
formatting only and is not modelled); JavaScript objects used as string-keyed
maps become association lists with insertion-order key semantics.
-/

namespace SynergySphere

/-- Task status: the three string values `'To-Do'`, `'In Progress'`, `'Done'`. -/
inductive Status where
  | todo
  | inProgress
  | done
deriving DecidableEq, Repr

/-- A task record.  `due` is the parsed due date in epoch milliseconds
(`none` when the task has no due date); `assignee` and `description` are
optional, matching the JS fields that may be absent or empty. -/
structure Task where
  id : Nat
  title : String
  description : Option String
  assignee : Option String
  due : Option Int
  status : Status
deriving DecidableEq, Repr

/-- A project record: `members` is the ordered member-email list,
`tasks` the ordered task list. -/
structure Project where
  id : Nat
  name : String
  members : List String
  tasks : List Task
deriving DecidableEq, Repr

/-- Priority label produced by the classifier (`insight.priority.priority`). -/
inductive Priority where
  | high
  | medium
  | low
deriving DecidableEq, Repr

/-- Deadline risk level produced by the analyzer (`insight.deadline.risk_level`). -/
inductive Risk where
  | overdue
  | critical
  | high
  | medium
  | low
deriving DecidableEq, Repr

/-- The priority part of an AI insight; only the `priority` field is read
by the dashboard aggregation code. -/
structure PriorityResult where
  priority : Priority
deriving DecidableEq, Repr

/-- The deadline part of an AI insight; only the `risk_level` field is read
by the dashboard aggregation code. -/
structure DeadlineRisk where
  risk_level : Risk
deriving DecidableEq, Repr

/-- A per-task AI insight as consumed by `AIDashboard`: each sub-field may be
absent (`insight?.priority?.priority`, `insight?.deadline?.risk_level`). -/
structure Insight where
  priority : Option PriorityResult
  deadline : Option DeadlineRisk
deriving DecidableEq, Repr

/-- One entry of the `taskInsights` array built by `generateProjectInsights`:
the task paired with its insight, which is `null` when `getAIInsights` failed
for that task. -/
structure TaskInsight where
  task : Task
  insight : Option Insight
deriving DecidableEq, Repr

/-- `generateProjectInsights`' per-task fan-out: each task is mapped through
`getAIInsights` wrapped in try/catch, so a failing call yields
`{ task, insight: null }` and leaves every other entry untouched.  The
external call (and its possible failure) is the function
`classify : Task → Option Insight`. -/
def resolveInsights (tasks : List Task) (classify : Task → Option Insight) :
    List TaskInsight :=
  tasks.map (fun t => { task := t, insight := classify t })

/-- Histogram of priority labels (`priorityCounts = { high: 0, medium: 0, low: 0 }`). -/
structure PriorityCounts where
  high : Nat
  medium : Nat
  low : Nat
deriving DecidableEq, Repr

/-- Histogram of risk levels (`riskCounts = { overdue: 0, critical: 0, high: 0, medium: 0, low: 0 }`). -/
structure RiskCounts where
  overdue : Nat
  critical : Nat
  high : Nat
  medium : Nat
  low : Nat
deriving DecidableEq, Repr

/-- One step of `priorityCounts[insight.priority.priority]++`. -/
def bumpPriorityCounts (c : PriorityCounts) (p : Priority) : PriorityCounts :=
  match p with
  | .high => { c with high := c.high + 1 }
  | .medium => { c with medium := c.medium + 1 }
  | .low => { c with low := c.low + 1 }

/-- One step of `riskCounts[insight.deadline.risk_level]++`. -/
def bumpRiskCounts (c : RiskCounts) (r : Risk) : RiskCounts :=
  match r with
  | .overdue => { c with overdue := c.overdue + 1 }
  | .critical => { c with critical := c.critical + 1 }
  | .high => { c with high := c.high + 1 }
  | .medium => { c with medium := c.medium + 1 }
  | .low => { c with low := c.low + 1 }

/-- The `forEach` loop filling `priorityCounts`: an entry contributes only
when `insight?.priority?.priority` is present. -/
def priorityCountsOf (taskInsights : List TaskInsight) : PriorityCounts :=
  taskInsights.foldl
    (fun c ti =>
      match ti.insight with
      | some ins =>
        match ins.priority with
        | some pr => bumpPriorityCounts c pr.priority
        | none => c
      | none => c)
    ⟨0, 0, 0⟩

/-- The `forEach` loop filling `riskCounts`: an entry contributes only
when `insight?.deadline?.risk_level` is present. -/
def riskCountsOf (taskInsights : List TaskInsight) : RiskCounts :=
  taskInsights.foldl
    (fun c ti =>
      match ti.insight with
      | some ins =>
        match ins.deadline with
        | some d => bumpRiskCounts c d.risk_level
        | none => c
      | none => c)
    ⟨0, 0, 0, 0, 0⟩

/-- `insight?.deadline?.risk_level === 'overdue' || insight?.deadline?.risk_level === 'critical'`. -/
def isHighRiskTI (ti : TaskInsight) : Bool :=
  match ti.insight with
  | some ins =>
    match ins.deadline with
    | some d => decide (d.risk_level = Risk.overdue) || decide (d.risk_level = Risk.critical)
    | none => false
  | none => false

/-- `insight?.priority?.priority === 'high'`. -/
def isHighPriorityTI (ti : TaskInsight) : Bool :=
  match ti.insight with
  | some ins =>
    match ins.priority with
    | some pr => decide (pr.priority = Priority.high)
    | none => false
  | none => false

/-- The record returned by `generateSummaryInsights`. -/
structure Summary where
  totalTasks : Nat
  completedTasks : Nat
  inProgressTasks : Nat
  todoTasks : Nat
  completionRate : ℚ
  priorityCounts : PriorityCounts
  riskCounts : RiskCounts
  highRiskTasks : Nat
  highPriorityTasks : Nat
  urgentTasks : Nat
deriving DecidableEq, Repr

/-- `generateSummaryInsights(taskInsights)` from `AIDashboard`.  `toFixed(1)`
on the completion rate is display formatting and is not modelled; the exact
rational value is kept. -/
def generateSummaryInsights (taskInsights : List TaskInsight) : Summary :=
  let totalTasks := taskInsights.length
  let completedTasks :=
    (taskInsights.filter (fun ti => decide (ti.task.status = Status.done))).length
  let inProgressTasks :=
    (taskInsights.filter (fun ti => decide (ti.task.status = Status.inProgress))).length
  let todoTasks :=
    (taskInsights.filter (fun ti => decide (ti.task.status = Status.todo))).length
  let highRiskTasks := (taskInsights.filter isHighRiskTI).length
  let highPriorityTasks := (taskInsights.filter isHighPriorityTI).length
  { totalTasks := totalTasks
    completedTasks := completedTasks
    inProgressTasks := inProgressTasks
    todoTasks := todoTasks
    completionRate :=
      if totalTasks > 0 then ((completedTasks : ℚ) / totalTasks) * 100 else 0
    priorityCounts := priorityCountsOf taskInsights
    riskCounts := riskCountsOf taskInsights
    highRiskTasks := highRiskTasks
    highPriorityTasks := highPriorityTasks
    urgentTasks := highRiskTasks + highPriorityTasks }

/-- Substring test modelling JavaScript `String.prototype.includes`:
`pat` occurs in `s` iff splitting `s` on `pat` yields at least two pieces. -/
def includesStr (s pat : String) : Bool :=
  decide (2 ≤ (s.splitOn pat).length)

/-- The complexity heuristic of `generateProductivityInsights`: description
longer than 100 characters or containing one of the keywords. -/
def isComplexTask (t : Task) : Bool :=
  let desc := t.description.getD ""
  decide (100 < desc.length)
    || includesStr desc.toLower "complex"
    || includesStr desc.toLower "difficult"
    || includesStr desc.toLower "challenging"

/-- The record returned by `generateProductivityInsights` (numeric values
kept as exact rationals; `toFixed(1)` not modelled). -/
structure Productivity where
  completionRate : ℚ
  progressRate : ℚ
  complexTasks : Nat
  avgTaskComplexity : ℚ
  productivityScore : ℚ
deriving DecidableEq, Repr

/-- `generateProductivityInsights(tasks)` from `AIDashboard`. -/
def generateProductivityInsights (tasks : List Task) : Productivity :=
  let completedTasks := tasks.filter (fun t => decide (t.status = Status.done))
  let inProgressTasks := tasks.filter (fun t => decide (t.status = Status.inProgress))
  let completionRate : ℚ :=
    if tasks.length > 0 then ((completedTasks.length : ℚ) / tasks.length) * 100 else 0
  let progressRate : ℚ :=
    if tasks.length > 0 then
      (((completedTasks.length + inProgressTasks.length : Nat) : ℚ) / tasks.length) * 100
    else 0
  let complexTasks := tasks.filter isComplexTask
  { completionRate := completionRate
    progressRate := progressRate
    complexTasks := complexTasks.length
    avgTaskComplexity :=
      if tasks.length > 0 then ((complexTasks.length : ℚ) / tasks.length) * 100 else 0
    productivityScore := min 100 ((completionRate + progressRate) / 2) }

/-- Milliseconds in one day, `1000 * 60 * 60 * 24`. -/
def msPerDay : Int := 1000 * 60 * 60 * 24

/-- The fractional days-left value computed inside `generateAIRecommendations`:
`(dueDate - today) / (1000 * 60 * 60 * 24)` with no rounding. -/
def recDaysLeft (now due : Int) : ℚ :=
  ((due - now : Int) : ℚ) / ((msPerDay : Int) : ℚ)

/-- The overdue filter of `generateAIRecommendations`:
a task with a due date, `dueDate < today` (full-timestamp comparison) and
status not `'Done'`. -/
def isOverdueTask (now : Int) (t : Task) : Bool :=
  match t.due with
  | none => false
  | some d => decide (d < now) && decide (t.status ≠ Status.done)

/-- `tasksWithDeadlines = tasks.filter(t => t.due && t.status !== 'Done')`. -/
def tasksWithDeadlines (tasks : List Task) : List Task :=
  tasks.filter (fun t => t.due.isSome && decide (t.status ≠ Status.done))

/-- The inner filter of `upcomingDeadlines`: `daysLeft <= 3 && daysLeft >= 0`
on the fractional days-left value. -/
def isDueSoon (now : Int) (t : Task) : Bool :=
  match t.due with
  | none => false
  | some d => decide (recDaysLeft now d ≤ 3) && decide (0 ≤ recDaysLeft now d)

/-- `upcomingDeadlines`: the non-Done tasks with a due date whose fractional
days-left lies in `[0, 3]`. -/
def upcomingDeadlines (now : Int) (tasks : List Task) : List Task :=
  (tasksWithDeadlines tasks).filter (isDueSoon now)

/-- `new Set(tasks.map(t => t.assignee).filter(Boolean)).size`: the number of
distinct non-empty assignees. -/
def uniqueAssigneeCount (tasks : List Task) : Nat :=
  (((tasks.filterMap Task.assignee).filter (fun s => decide (s ≠ ""))).dedup).length

/-- The completion rate computed inside `generateAIRecommendations`:
`tasks.length > 0 ? (done / tasks.length) * 100 : 0`. -/
def recCompletionRate (tasks : List Task) : ℚ :=
  if tasks.length > 0 then
    (((tasks.filter (fun t => decide (t.status = Status.done))).length : ℚ) / tasks.length) * 100
  else 0

/-- A strategic recommendation record as pushed by `generateAIRecommendations`. -/
structure Recommendation where
  type : String
  icon : String
  title : String
  description : String
  action : String
  priority : String
deriving DecidableEq, Repr

/-- The `'urgent'` recommendation pushed when overdue tasks exist. -/
def urgentRec (n : Nat) : Recommendation :=
  { type := "urgent", icon := "🚨", title := "Overdue Tasks Detected"
    description := s!"{n} tasks are overdue. AI suggests immediate attention and stakeholder communication."
    action := "Review overdue tasks and update timelines", priority := "high" }

/-- The `'workload'` recommendation pushed when more than 5 tasks are active. -/
def workloadRec : Recommendation :=
  { type := "workload", icon := "⚖️", title := "Workload Distribution Alert"
    description := "High number of active tasks detected. AI recommends task prioritization and resource allocation."
    action := "Consider breaking down large tasks or adding team members", priority := "medium" }

/-- The `'productivity'` recommendation pushed when the completion rate is below 30. -/
def productivityRec : Recommendation :=
  { type := "productivity", icon := "📈", title := "Productivity Optimization"
    description := "Low completion rate detected. AI suggests implementing daily standups and task breakdown."
    action := "Break down complex tasks into smaller, manageable pieces", priority := "medium" }

/-- The `'deadline'` recommendation pushed when deadlines fall within 3 days. -/
def deadlineRec (n : Nat) : Recommendation :=
  { type := "deadline", icon := "⏰", title := "Upcoming Deadlines"
    description := s!"{n} tasks have deadlines within 3 days. AI recommends focused attention."
    action := "Prioritize tasks with imminent deadlines", priority := "high" }

/-- The `'collaboration'` recommendation pushed when the average tasks per
assignee exceeds 3. -/
def collaborationRec : Recommendation :=
  { type := "collaboration", icon := "👥", title := "Team Collaboration Opportunity"
    description := "AI detects potential for better task distribution and cross-team collaboration."
    action := "Consider redistributing tasks or adding more team members", priority := "low" }

/-- The `'success'` default pushed when no other recommendation was produced. -/
def successRec : Recommendation :=
  { type := "success", icon := "🎉", title := "Excellent Project Management"
    description := "AI analysis shows healthy project metrics. Keep up the great work!"
    action := "Continue current practices and consider expanding the project scope"
    priority := "low" }

/-- The five conditional pushes of `generateAIRecommendations`, in program
order, before the default check. -/
def recsBeforeDefault (now : Int) (tasks : List Task) : List Recommendation :=
  let overdueTasks := (tasks.filter (isOverdueTask now)).length
  let highPriorityTasks := (tasks.filter (fun t => decide (t.status ≠ Status.done))).length
  let upcoming := (upcomingDeadlines now tasks).length
  let nAssignees := uniqueAssigneeCount tasks
  (if overdueTasks > 0 then [urgentRec overdueTasks] else [])
    ++ (if highPriorityTasks > 5 then [workloadRec] else [])
    ++ (if recCompletionRate tasks < 30 then [productivityRec] else [])
    ++ (if upcoming > 0 then [deadlineRec upcoming] else [])
    ++ (if nAssignees > 0 ∧ 3 < (tasks.length : ℚ) / nAssignees then [collaborationRec] else [])

/-- `generateAIRecommendations(tasks)` from `AIDashboard`; `now` is the
timestamp of `new Date()`.  If no rule fired, the single default `'success'`
recommendation is returned. -/
def generateAIRecommendations (now : Int) (tasks : List Task) : List Recommendation :=
  if (recsBeforeDefault now tasks).length = 0 then [successRec]
  else recsBeforeDefault now tasks

/-- Lookup in a JavaScript object used as a string-keyed map
(`memberTaskCounts[member]`): the value at the first matching key, `none`
when the key is absent (JS `undefined`). -/
def objGet : List (String × Nat) → String → Option Nat
  | [], _ => none
  | kv :: rest, k => if kv.1 = k then some kv.2 else objGet rest k

/-- Assignment `obj[k] = v` on a JavaScript object: replaces the value at an
existing key in place (keys keep their insertion order), appends a new key at
the end otherwise. -/
def objSet : List (String × Nat) → String → Nat → List (String × Nat)
  | [], k, v => [(k, v)]
  | kv :: rest, k, v => if kv.1 = k then (k, v) :: rest else kv :: objSet rest k v

/-- `project.tasks.filter(t => t.assignee === member).length`: the number of
tasks of project `p` assigned to `mem`. -/
def memberContribution (p : Project) (mem : String) : Nat :=
  (p.tasks.filter (fun t => decide (t.assignee = some mem))).length

/-- The nested `forEach` of `generateTeamInsights` filling `memberTaskCounts`:
for each project, for each member *listed in that project's member list*,
`memberTaskCounts[member] = (memberTaskCounts[member] || 0) +
project.tasks.filter(t => t.assignee === member).length`. -/
def memberTaskCounts (projects : List Project) : List (String × Nat) :=
  projects.foldl
    (fun acc p =>
      p.members.foldl
        (fun acc2 mem =>
          objSet acc2 mem ((objGet acc2 mem).getD 0 + memberContribution p mem))
        acc)
    []

/-- JavaScript `counts[a] > counts[b]` where either side may be `undefined`:
any comparison involving `undefined` is `false`. -/
def jsGtOpt (x y : Option Nat) : Bool :=
  match x, y with
  | some a, some b => decide (b < a)
  | _, _ => false

/-- The reducer `(a, b) => counts[a] > counts[b] ? a : b` with the lookup
function abstracted. -/
def pickStep (get : String → Option Nat) (a b : String) : String :=
  if jsGtOpt (get a) (get b) then a else b

/-- `Object.keys(memberTaskCounts).reduce((a, b) =>
memberTaskCounts[a] > memberTaskCounts[b] ? a : b, 'None')`. -/
def mostActive (counts : List (String × Nat)) : String :=
  (counts.map Prod.fst).foldl (pickStep (objGet counts)) "None"

/-- The record returned by `generateTeamInsights`. -/
structure TeamInsights where
  totalMembers : Nat
  avgTasksPerMember : ℚ
  mostActiveMember : String
  projectDistribution : List (String × Nat)
deriving DecidableEq, Repr

/-- `generateTeamInsights(projects)` from `AIDashboard`.  `allMembers` is a
`Set`, so `totalMembers` counts distinct members; `projectCounts` assigns
`project.tasks.length` under the project name (later projects with the same
name overwrite). -/
def generateTeamInsights (projects : List Project) : TeamInsights :=
  let counts := memberTaskCounts projects
  let totalMembers := ((projects.flatMap Project.members).dedup).length
  { totalMembers := totalMembers
    avgTasksPerMember :=
      if totalMembers > 0 then
        (((counts.map Prod.snd).sum : ℚ) / totalMembers)
      else 0
    mostActiveMember := mostActive counts
    projectDistribution :=
      projects.foldl (fun acc p => objSet acc p.name p.tasks.length) [] }

/-- `addMember` from `ProjectDetail`: `prompt` may return `null`
(modelled as `none`) or an email string; the member is appended only when the
string is truthy (non-empty) and not already in `project.members`. -/
def addMember (p : Project) (email : Option String) : Project :=
  match email with
  | none => p
  | some e =>
    if e ≠ "" ∧ e ∉ p.members then { p with members := p.members ++ [e] } else p

/-- `Math.ceil(a / b)` for integers with `b > 0`. -/
def jsCeilDiv (a b : Int) : Int := -((-a).ediv b)

/-- `getDaysLeft` from `AITaskCard`:
`Math.ceil((new Date(dueDate) - new Date()) / (1000 * 60 * 60 * 24))`,
or `null` when there is no due date.  `now` is the current timestamp. -/
def getDaysLeft (dueDate : Option Int) (now : Int) : Option Int :=
  match dueDate with
  | none => none
  | some due => some (jsCeilDiv (due - now) msPerDay)

/-- `projects.flatMap(project => project.tasks.map(...))` from
`generateProjectInsights`/`generateAdvancedAIInsights`; the `projectName`
enrichment is metadata unused by the modelled aggregation and is dropped. -/
def collectAllTasks (projects : List Project) : List Task :=
  projects.flatMap Project.tasks

/-- The summary half of the dashboard analysis entry point: collect every
task of every project, fan out the (possibly failing) classifier per task,
and aggregate.  No validation of any Task/Project invariant is performed
anywhere on this path. -/
def analyzeDashboard (classify : Task → Option Insight) (projects : List Project) :
    Summary :=
  generateSummaryInsights (resolveInsights (collectAllTasks projects) classify)

/-! ## Concrete fixtures used by counterexamples and witnesses -/

/-- A task assigned to `"a"` with no due date. -/
def taskForA : Task :=
  { id := 1, title := "t1", description := none, assignee := some "a"
    due := none, status := Status.todo }

/-- A task assigned to `"b"` with no due date. -/
def taskForB : Task :=
  { id := 2, title := "t2", description := none, assignee := some "b"
    due := none, status := Status.todo }

/-- A task due at epoch midnight (day 0) and not Done. -/
def taskDueDayZero : Task :=
  { id := 3, title := "t3", description := none, assignee := none
    due := some 0, status := Status.todo }

/-- Two projects: the first lists member `"a"` but has no tasks; the second
has a task assigned to `"a"` but does not list `"a"` as a member. -/
def splitProjects : List Project :=
  [ { id := 1, name := "P1", members := ["a"], tasks := [] }
  , { id := 2, name := "P2", members := [], tasks := [taskForA] } ]

/-- One project with two members `"a"`, `"b"` (in that order), one task
assigned to each, so the per-member counts tie at 1. -/
def tieProjects : List Project :=
  [ { id := 1, name := "P", members := ["a", "b"], tasks := [taskForA, taskForB] } ]

/-- A project violating the Task invariant: two tasks share id 1. -/
def dupIdProject : Project :=
  { id := 1, name := "P"
    members := []
    tasks :=
      [ { id := 1, title := "t1", description := none, assignee := none
          due := none, status := Status.todo }
      , { id := 1, title := "t2", description := none, assignee := none
          due := none, status := Status.done } ] }

/-- A project with a single member, used to instantiate `addMember`. -/
def oneMemberProject : Project :=
  { id := 1, name := "P", members := ["a"], tasks := [] }

/-- A concrete classifier that fails (returns `none`) exactly on tasks with
id 1 and yields a high-priority insight otherwise. -/
def failOnId1 : Task → Option Insight := fun t =>
  if t.id = 1 then none
  else some { priority := some { priority := Priority.high }, deadline := none }

/-! ## Helper lemmas -/

/-- The guarded percentage `c / n * 100` lies in `[0, 100]` whenever `c ≤ n`. -/
theorem guardedRate_bounds (c n : Nat) (h : c ≤ n) :
    0 ≤ (if n > 0 then ((c : ℚ) / n) * 100 else 0) ∧
      (if n > 0 then ((c : ℚ) / n) * 100 else 0) ≤ 100 := by
  split
  case isTrue hn =>
    have hn' : (0 : ℚ) < n := by exact_mod_cast hn
    have hc : (c : ℚ) ≤ n := by exact_mod_cast h
    constructor
    · positivity
    · rw [div_mul_eq_mul_div, div_le_iff₀ hn']
      nlinarith
  case isFalse => norm_num

theorem summary_completionRate_eq (taskInsights : List TaskInsight) :
    (generateSummaryInsights taskInsights).completionRate =
      if taskInsights.length > 0 then
        (((taskInsights.filter (fun ti => decide (ti.task.status = Status.done))).length : ℚ)
            / taskInsights.length) * 100
      else 0 := rfl

theorem productivity_completionRate_eq (tasks : List Task) :
    (generateProductivityInsights tasks).completionRate =
      if tasks.length > 0 then
        (((tasks.filter (fun t => decide (t.status = Status.done))).length : ℚ)
            / tasks.length) * 100
      else 0 := rfl

/-! ## Claim theorems -/

/-- **C2.** The aggregated `urgentTasks` count equals the number of insights
whose deadline risk is overdue or critical plus the number whose priority is
high; a task satisfying both conditions is counted once in each summand,
hence twice in total (no deduplication). -/
theorem C2_urgentTasks_eq_sum (taskInsights : List TaskInsight) :
    (generateSummaryInsights taskInsights).urgentTasks =
      taskInsights.countP isHighRiskTI + taskInsights.countP isHighPriorityTI := by
  simp [generateSummaryInsights, List.countP_eq_length_filter]

/-- **C3.** Both computed completion rates (productivity pass and summary
pass) always lie in `[0, 100]`, and both are `0` on the empty collection:
the guarded division never faults. -/
theorem C3_completionRate_bounds :
    (∀ tasks : List Task,
        0 ≤ (generateProductivityInsights tasks).completionRate ∧
          (generateProductivityInsights tasks).completionRate ≤ 100) ∧
      (generateProductivityInsights []).completionRate = 0 ∧
      (∀ taskInsights : List TaskInsight,
        0 ≤ (generateSummaryInsights taskInsights).completionRate ∧
          (generateSummaryInsights taskInsights).completionRate ≤ 100) ∧
      (generateSummaryInsights []).completionRate = 0 := by
  refine ⟨?_, ?_, ?_, ?_⟩
  · intro tasks
    rw [productivity_completionRate_eq]
    exact guardedRate_bounds _ _ (List.length_filter_le _ _)
  · rfl
  · intro taskInsights
    rw [summary_completionRate_eq]
    exact guardedRate_bounds _ _ (List.length_filter_le _ _)
  · rfl

theorem productivity_progressRate_eq (tasks : List Task) :
    (generateProductivityInsights tasks).progressRate =
      if tasks.length > 0 then
        ((((tasks.filter (fun t => decide (t.status = Status.done))).length
              + (tasks.filter (fun t => decide (t.status = Status.inProgress))).length : Nat) : ℚ)
            / tasks.length) * 100
      else 0 := rfl

theorem productivity_score_eq (tasks : List Task) :
    (generateProductivityInsights tasks).productivityScore =
      min 100
        (((generateProductivityInsights tasks).completionRate
            + (generateProductivityInsights tasks).progressRate) / 2) := rfl

/-- A task cannot be both `Done` and `In Progress`, so the two status filters
together select at most the whole list. -/
theorem done_add_inProgress_le_length (tasks : List Task) :
    (tasks.filter (fun t => decide (t.status = Status.done))).length
        + (tasks.filter (fun t => decide (t.status = Status.inProgress))).length
      ≤ tasks.length := by
  induction tasks with
  | nil => simp
  | cons a l ih =>
    rcases h : a.status <;>
      simp [List.filter_cons, h] <;> omega

/-- **C10.** Both rates are at most `100`, hence the clamp
`min(100, (completionRate + progressRate) / 2)` in the productivity score is
never effective: the score always equals the unclamped average. -/
theorem C10_productivityScore_unclamped (tasks : List Task) :
    (generateProductivityInsights tasks).productivityScore =
      ((generateProductivityInsights tasks).completionRate
          + (generateProductivityInsights tasks).progressRate) / 2 := by
  have hc : (generateProductivityInsights tasks).completionRate ≤ 100 := by
    rw [productivity_completionRate_eq]
    exact (guardedRate_bounds _ tasks.length (List.length_filter_le _ _)).2
  have hp : (generateProductivityInsights tasks).progressRate ≤ 100 := by
    rw [productivity_progressRate_eq]
    exact (guardedRate_bounds _ tasks.length (done_add_inProgress_le_length tasks)).2
  rw [productivity_score_eq, min_eq_right]
  linarith [hc, hp]

/-- **C9.** `addMember` appends the candidate email only when it is a
non-empty address not already present; when the email is already a member
the project is returned unchanged, and the member list stays duplicate-free
after the operation. -/
theorem C9_addMember_spec (p : Project) (e : String) (hnd : p.members.Nodup) :
    (e ∈ p.members → addMember p (some e) = p) ∧
      (addMember p (some e)).members.Nodup ∧
      (addMember p none).members.Nodup ∧
      (e ∉ p.members → e ≠ "" →
        (addMember p (some e)).members = p.members ++ [e]) := by
  refine ⟨?_, ?_, hnd, ?_⟩
  · intro hmem
    simp [addMember, hmem]
  · by_cases h1 : e = ""
    · simp [addMember, h1, hnd]
    by_cases h2 : e ∈ p.members
    · simp [addMember, h2, hnd]
    · simp [addMember, h1, h2, List.nodup_append, hnd, List.disjoint_singleton]
  · intro h2 h1
    simp [addMember, h1, h2]

/-- Witness for C9 at a concrete project and email. -/
theorem C9_addMember_spec_witness :
    (["a"] : List String).Nodup ∧
      (("b" ∈ oneMemberProject.members → addMember oneMemberProject (some "b") = oneMemberProject) ∧
        (addMember oneMemberProject (some "b")).members.Nodup ∧
        (addMember oneMemberProject none).members.Nodup ∧
        ("b" ∉ oneMemberProject.members → "b" ≠ "" →
          (addMember oneMemberProject (some "b")).members = oneMemberProject.members ++ ["b"])) :=
  ⟨by decide, C9_addMember_spec oneMemberProject "b" (by decide)⟩

/-- **C7 (amended).** The task card's `getDaysLeft` does compute the
whole-day date-only difference: for a due date at UTC midnight of day `D`
and a current time anywhere inside day `T`, the result is `D - T`
(in particular `0` when the due date is today). -/
theorem C7_getDaysLeft_dateOnly (D T r : Int) (h0 : 0 ≤ r) (h1 : r < msPerDay) :
    getDaysLeft (some (D * msPerDay)) (T * msPerDay + r) = some (D - T) := by
  simp only [getDaysLeft, jsCeilDiv, msPerDay] at *
  congr 1
  have hrw : -(D * (1000 * 60 * 60 * 24) - (T * (1000 * 60 * 60 * 24) + r)) =
      r + (T - D) * (1000 * 60 * 60 * 24) := by ring
  rw [hrw]
  have h2 : (r + (T - D) * (1000 * 60 * 60 * 24)).ediv (1000 * 60 * 60 * 24) =
      r / (1000 * 60 * 60 * 24) + (T - D) :=
    Int.add_mul_ediv_right r (T - D) (by norm_num)
  rw [h2, Int.ediv_eq_zero_of_lt h0 h1]
  ring

/-- Witness for C7 (amended): a task due on day 5, queried at noon of day 5,
has zero days left. -/
theorem C7_getDaysLeft_dateOnly_witness :
    (0 : Int) ≤ 43200000 ∧ (43200000 : Int) < msPerDay ∧
      getDaysLeft (some (5 * msPerDay)) (5 * msPerDay + 43200000) = some 0 :=
  ⟨by norm_num, by norm_num [msPerDay],
    by simpa using C7_getDaysLeft_dateOnly 5 5 43200000 (by norm_num) (by norm_num [msPerDay])⟩

/-- **C7 (counterexample).** The recommendation generator's days-left value is
the raw fractional difference, not the whole-day date-only one: at noon of
day 0, a task due at midnight of day 1 has `recDaysLeft = 1/2` while the
date-only whole-day difference (as computed by `getDaysLeft`) is `1`; and a
task due *today* (midnight of day 0) is already counted overdue by the
generator's full-timestamp comparison although its date-only days-left is `0`. -/
theorem C7_recDaysLeft_fractional_cex :
    recDaysLeft 43200000 86400000 = 1 / 2 ∧
      ((1 : ℚ) / 2) ≠ 1 ∧
      getDaysLeft (some 86400000) 43200000 = some 1 ∧
      isOverdueTask 43200000 taskDueDayZero = true ∧
      getDaysLeft (some 0) 43200000 = some 0 := by
  refine ⟨?_, by norm_num, by decide, by decide, by decide⟩
  norm_num [recDaysLeft, msPerDay]

/-- **C8 (counterexample).** The analysis pipeline performs no invariant
validation: on a project whose two tasks share id 1 it does not fail but
silently produces a full aggregate counting both records. -/
theorem C8_no_validation_cex :
    dupIdProject.tasks.map Task.id = [1, 1] ∧
      (analyzeDashboard (fun _ => none) [dupIdProject]).totalTasks = 2 ∧
      (analyzeDashboard (fun _ => none) [dupIdProject]).completedTasks = 1 := by
  refine ⟨rfl, ?_, ?_⟩ <;> decide

/-- **C8 (amended).** The analysis entry point never aborts: it is a total
function whose aggregate always counts every task record of every project
exactly as given, whether or not the Task/Project invariants hold. -/
theorem C8_analysis_total (classify : Task → Option Insight) (projects : List Project) :
    (analyzeDashboard classify projects).totalTasks =
      (projects.map (fun p => p.tasks.length)).sum := by
  simp [analyzeDashboard, generateSummaryInsights, resolveInsights, collectAllTasks,
    List.flatMap_def, Function.comp]
  exact congrArg List.sum (List.map_congr_left (fun p _ => by simp))

/-- An entry with an absent insight contributes nothing to the priority
histogram. -/
theorem priorityCountsOf_skips_none (l1 l2 : List TaskInsight) (u : Task) :
    priorityCountsOf (l1 ++ { task := u, insight := none } :: l2) =
      priorityCountsOf (l1 ++ l2) := by
  simp [priorityCountsOf, List.foldl_append]

/-- An entry with an absent insight contributes nothing to the risk
histogram. -/
theorem riskCountsOf_skips_none (l1 l2 : List TaskInsight) (u : Task) :
    riskCountsOf (l1 ++ { task := u, insight := none } :: l2) =
      riskCountsOf (l1 ++ l2) := by
  simp [riskCountsOf, List.foldl_append]

/-- **C4.** A failing classification yields a `null` insight for exactly that
task and leaves every other entry untouched (each entry depends only on its
own task), and the aggregation ignores entries with absent insights: the
priority/risk histograms and the high-risk and high-priority counts are
unchanged by inserting such an entry anywhere. -/
theorem C4_failure_isolated_and_excluded
    (tasks : List Task) (classify : Task → Option Insight)
    (i : Nat) (t : Task) (ht : tasks[i]? = some t) (hfail : classify t = none) :
    (resolveInsights tasks classify)[i]? = some { task := t, insight := none } ∧
      (∀ (j : Nat) (u : Task), tasks[j]? = some u →
        (resolveInsights tasks classify)[j]? = some { task := u, insight := classify u }) ∧
      (∀ (l1 l2 : List TaskInsight) (u : Task),
        (generateSummaryInsights (l1 ++ { task := u, insight := none } :: l2)).priorityCounts
            = (generateSummaryInsights (l1 ++ l2)).priorityCounts ∧
          (generateSummaryInsights (l1 ++ { task := u, insight := none } :: l2)).riskCounts
            = (generateSummaryInsights (l1 ++ l2)).riskCounts ∧
          (generateSummaryInsights (l1 ++ { task := u, insight := none } :: l2)).highRiskTasks
            = (generateSummaryInsights (l1 ++ l2)).highRiskTasks ∧
          (generateSummaryInsights (l1 ++ { task := u, insight := none } :: l2)).highPriorityTasks
            = (generateSummaryInsights (l1 ++ l2)).highPriorityTasks) := by
  refine ⟨?_, ?_, ?_⟩
  · simp [resolveInsights, ht, hfail]
  · intro j u hu
    simp [resolveInsights, hu]
  · intro l1 l2 u
    refine ⟨priorityCountsOf_skips_none l1 l2 u, riskCountsOf_skips_none l1 l2 u, ?_, ?_⟩
    · simp [generateSummaryInsights, List.filter_cons, isHighRiskTI]
    · simp [generateSummaryInsights, List.filter_cons, isHighPriorityTI]

/-- Witness for C4: two concrete tasks, a classifier failing on the first
only. -/
theorem C4_failure_isolated_and_excluded_witness :
    ([taskForA, taskForB][0]? = some taskForA) ∧
      failOnId1 taskForA = none ∧
      (resolveInsights [taskForA, taskForB] failOnId1)[0]?
        = some { task := taskForA, insight := none } :=
  ⟨by decide, by decide,
    (C4_failure_isolated_and_excluded [taskForA, taskForB] failOnId1
      0 taskForA (by decide) (by decide)).1⟩

theorem ite_singleton_eq_nil {α : Type} {c : Prop} [Decidable c] (x : α) :
    (if c then [x] else []) = [] ↔ ¬c := by
  split <;> simp_all

theorem eq_of_mem_ite_singleton {α : Type} {c : Prop} [Decidable c] {x y : α}
    (h : y ∈ if c then [x] else []) : y = x := by
  by_cases hc : c
  · rw [if_pos hc] at h
    simpa using h
  · rw [if_neg hc] at h
    simp at h

/-- The default recommendation is never among the rule-produced ones. -/
theorem successRec_not_mem_recsBeforeDefault (now : Int) (tasks : List Task) :
    successRec ∉ recsBeforeDefault now tasks := by
  intro hmem
  simp only [recsBeforeDefault, List.mem_append] at hmem
  rcases hmem with ((((h | h) | h) | h) | h) <;>
    · have heq := eq_of_mem_ite_singleton h
      simp_all [successRec, urgentRec, workloadRec, productivityRec, deadlineRec,
        collaborationRec]

/-- The rule-produced list is empty iff none of the five code-level
conditions holds. -/
theorem recsBeforeDefault_eq_nil_iff (now : Int) (tasks : List Task) :
    recsBeforeDefault now tasks = [] ↔
      ¬(0 < (tasks.filter (isOverdueTask now)).length) ∧
        ¬(5 < (tasks.filter (fun t => decide (t.status ≠ Status.done))).length) ∧
        ¬(recCompletionRate tasks < 30) ∧
        ¬(0 < (upcomingDeadlines now tasks).length) ∧
        ¬(0 < uniqueAssigneeCount tasks ∧
            3 < (tasks.length : ℚ) / uniqueAssigneeCount tasks) := by
  simp only [recsBeforeDefault, List.append_eq_nil, ite_singleton_eq_nil, gt_iff_lt]
  tauto

/-- Bridge: the overdue-count trigger fires iff some task is not Done and has
a due timestamp before `now`. -/
theorem overdue_pos_iff (now : Int) (tasks : List Task) :
    0 < (tasks.filter (isOverdueTask now)).length ↔
      ∃ t ∈ tasks, t.status ≠ Status.done ∧ ∃ d, t.due = some d ∧ d < now := by
  rw [List.length_pos_iff_exists_mem]
  constructor
  · rintro ⟨t, ht⟩
    rw [List.mem_filter] at ht
    obtain ⟨htm, hp⟩ := ht
    refine ⟨t, htm, ?_⟩
    unfold isOverdueTask at hp
    cases hdu : t.due with
    | none => rw [hdu] at hp; simp at hp
    | some d =>
      rw [hdu] at hp
      simp only [Bool.and_eq_true, decide_eq_true_eq] at hp
      exact ⟨hp.2, d, rfl, hp.1⟩
  · rintro ⟨t, htm, hnd, d, hdu, hlt⟩
    exact ⟨t, List.mem_filter.mpr ⟨htm, by simp [isOverdueTask, hdu, hlt, hnd]⟩⟩

/-- Bridge: the upcoming-deadline trigger fires iff some non-Done task has a
due date whose fractional days-left lies in `[0, 3]`. -/
theorem upcoming_pos_iff (now : Int) (tasks : List Task) :
    0 < (upcomingDeadlines now tasks).length ↔
      ∃ t ∈ tasks, t.status ≠ Status.done ∧ ∃ d, t.due = some d ∧
        0 ≤ recDaysLeft now d ∧ recDaysLeft now d ≤ 3 := by
  rw [List.length_pos_iff_exists_mem]
  constructor
  · rintro ⟨t, ht⟩
    simp only [upcomingDeadlines, tasksWithDeadlines, List.mem_filter] at ht
    obtain ⟨⟨htm, hflag⟩, hsoon⟩ := ht
    cases hdu : t.due with
    | none => rw [hdu] at hflag; simp at hflag
    | some d =>
      unfold isDueSoon at hsoon
      rw [hdu] at hflag hsoon
      simp only [Option.isSome_some, Bool.true_and, decide_eq_true_eq] at hflag
      simp only [Bool.and_eq_true, decide_eq_true_eq] at hsoon
      exact ⟨t, htm, hflag, d, hdu, hsoon.2, hsoon.1⟩
  · rintro ⟨t, htm, hnd, d, hdu, h0, h3⟩
    refine ⟨t, ?_⟩
    simp only [upcomingDeadlines, tasksWithDeadlines, List.mem_filter]
    exact ⟨⟨htm, by simp [hdu, hnd]⟩, by simp [isDueSoon, hdu, h0, h3]⟩

/-- **C1.** The recommendation generator always returns at least one
recommendation, and it returns exactly the single default low-priority
healthy recommendation iff none of the five trigger conditions holds:
no overdue task, at most 5 active tasks, completion rate at least 30, no
non-Done task due within 0-3 days, and average tasks per distinct assignee
not above 3. -/
theorem C1_recommendations_default_iff (now : Int) (tasks : List Task) :
    1 ≤ (generateAIRecommendations now tasks).length ∧
      (generateAIRecommendations now tasks = [successRec] ↔
        ¬((∃ t ∈ tasks, t.status ≠ Status.done ∧ ∃ d, t.due = some d ∧ d < now) ∨
          5 < (tasks.filter (fun t => decide (t.status ≠ Status.done))).length ∨
          recCompletionRate tasks < 30 ∨
          (∃ t ∈ tasks, t.status ≠ Status.done ∧ ∃ d, t.due = some d ∧
            0 ≤ recDaysLeft now d ∧ recDaysLeft now d ≤ 3) ∨
          (0 < uniqueAssigneeCount tasks ∧
            3 < (tasks.length : ℚ) / uniqueAssigneeCount tasks))) := by
  have hmem := successRec_not_mem_recsBeforeDefault now tasks
  have hnil := recsBeforeDefault_eq_nil_iff now tasks
  have b1 := overdue_pos_iff now tasks
  have b4 := upcoming_pos_iff now tasks
  constructor
  · simp only [generateAIRecommendations]
    split
    · simp
    · next hlen => omega
  · constructor
    · intro h
      have hnilrec : recsBeforeDefault now tasks = [] := by
        by_contra hne
        have hres : generateAIRecommendations now tasks = recsBeforeDefault now tasks := by
          simp [generateAIRecommendations, List.length_eq_zero, hne]
        rw [hres] at h
        exact hmem (h ▸ List.mem_singleton_self successRec)
      obtain ⟨h1, h2, h3, h4, h5⟩ := hnil.mp hnilrec
      simp only [not_or]
      exact ⟨fun hc => h1 (b1.mpr hc), h2, h3, fun hc => h4 (b4.mpr hc), h5⟩
    · intro h
      simp only [not_or] at h
      obtain ⟨h1, h2, h3, h4, h5⟩ := h
      have hnilrec : recsBeforeDefault now tasks = [] :=
        hnil.mpr ⟨fun hc => h1 (b1.mp hc), h2, h3, fun hc => h4 (b4.mp hc), h5⟩
      simp [generateAIRecommendations, hnilrec]

theorem objGet_objSet_self (l : List (String × Nat)) (k : String) (v : Nat) :
    objGet (objSet l k v) k = some v := by
  induction l with
  | nil => simp [objSet, objGet]
  | cons kv rest ih =>
    by_cases h : kv.1 = k
    · simp [objSet, h, objGet]
    · simp [objSet, h, objGet, ih]

theorem objGet_objSet_ne (l : List (String × Nat)) (k k' : String) (v : Nat)
    (h : k ≠ k') : objGet (objSet l k v) k' = objGet l k' := by
  induction l with
  | nil => simp [objSet, objGet, h]
  | cons kv rest ih =>
    by_cases hk : kv.1 = k
    · simp [objSet, hk, objGet, h, ih]
    · simp [objSet, hk, objGet, ih]

theorem objGet_isSome_of_mem_keys (counts : List (String × Nat)) (k : String)
    (h : k ∈ counts.map Prod.fst) : (objGet counts k).isSome := by
  induction counts with
  | nil => simp at h
  | cons kv rest ih =>
    by_cases hk : kv.1 = k
    · simp [objGet, hk]
    · simp only [List.map_cons, List.mem_cons] at h
      rcases h with h | h
      · exact absurd h.symm hk
      · simp only [objGet, if_neg hk]
        exact ih h

theorem objGet_eq_none_of_not_mem_keys (counts : List (String × Nat)) (k : String)
    (h : k ∉ counts.map Prod.fst) : objGet counts k = none := by
  induction counts with
  | nil => simp [objGet]
  | cons kv rest ih =>
    simp only [List.map_cons, List.mem_cons, not_or] at h
    have hne : ¬(kv.1 = k) := fun hc => h.1 hc.symm
    simp only [objGet, if_neg hne]
    exact ih h.2

/-- One project's inner `forEach`: a member occurring (once) in the member
list has its count increased by that project's contribution; any other key is
untouched. -/
theorem innerFold_objGet (c : String → Nat) (m : String) :
    ∀ (members : List String) (acc : List (String × Nat)), members.Nodup →
      objGet
          (members.foldl
            (fun acc2 mem => objSet acc2 mem ((objGet acc2 mem).getD 0 + c mem)) acc)
          m =
        if m ∈ members then some ((objGet acc m).getD 0 + c m) else objGet acc m := by
  intro members
  induction members with
  | nil => intro acc _; simp
  | cons mem rest ih =>
    intro acc hnd
    have hnd2 : rest.Nodup := (List.nodup_cons.mp hnd).2
    have hmemrest : mem ∉ rest := (List.nodup_cons.mp hnd).1
    rw [List.foldl_cons, ih _ hnd2]
    by_cases hm : mem = m
    · subst hm
      simp [hmemrest, objGet_objSet_self]
    · have hm2 : ¬(m = mem) := fun hh => hm hh.symm
      have hobj :
          objGet (objSet acc mem ((objGet acc mem).getD 0 + c mem)) m = objGet acc m :=
        objGet_objSet_ne _ _ _ _ hm
      simp [hobj, hm2]

/-- Accumulator-generalised form of the `memberTaskCounts` characterisation. -/
theorem memberTaskCounts_fold_objGet (m : String) :
    ∀ (projects : List Project) (acc : List (String × Nat)),
      (∀ p ∈ projects, p.members.Nodup) →
      objGet
          (projects.foldl
            (fun acc p =>
              p.members.foldl
                (fun acc2 mem =>
                  objSet acc2 mem ((objGet acc2 mem).getD 0 + memberContribution p mem))
                acc)
            acc)
          m =
        if ∃ p ∈ projects, m ∈ p.members then
          some ((objGet acc m).getD 0 +
            (projects.map
              (fun p => if m ∈ p.members then memberContribution p m else 0)).sum)
        else objGet acc m := by
  intro projects
  induction projects with
  | nil => intro acc _; simp
  | cons p rest ih =>
    intro acc hnodups
    have hndp : p.members.Nodup := hnodups p (by simp)
    rw [List.foldl_cons, ih _ (fun q hq => hnodups q (by simp [hq]))]
    have hinner := innerFold_objGet (memberContribution p) m p.members acc hndp
    by_cases hm : m ∈ p.members
    · rw [if_pos hm] at hinner
      have hcond : ∃ q ∈ p :: rest, m ∈ q.members := ⟨p, by simp, hm⟩
      by_cases hrest : ∃ q ∈ rest, m ∈ q.members
      · rw [if_pos hrest, if_pos hcond, hinner]
        simp only [List.map_cons, List.sum_cons, if_pos hm, Option.getD_some]
        congr 1
        omega
      · rw [if_neg hrest, if_pos hcond, hinner]
        have hS :
            (rest.map
              (fun q => if m ∈ q.members then memberContribution q m else 0)).sum = 0 := by
          rw [List.sum_eq_zero]
          intro x hx
          simp only [List.mem_map] at hx
          obtain ⟨q, hq, rfl⟩ := hx
          exact if_neg (fun hc => hrest ⟨q, hq, hc⟩)
        simp only [List.map_cons, List.sum_cons, if_pos hm, hS]
        congr 1
    · rw [if_neg hm] at hinner
      have hcond : (∃ q ∈ p :: rest, m ∈ q.members) ↔ ∃ q ∈ rest, m ∈ q.members := by
        constructor
        · rintro ⟨q, hq, hqm⟩
          rcases List.mem_cons.mp hq with rfl | hq2
          · exact absurd hqm hm
          · exact ⟨q, hq2, hqm⟩
        · rintro ⟨q, hq, hqm⟩
          exact ⟨q, List.mem_cons_of_mem _ hq, hqm⟩
      by_cases hrest : ∃ q ∈ rest, m ∈ q.members
      · rw [if_pos hrest, if_pos (hcond.mpr hrest), hinner]
        simp [List.map_cons, List.sum_cons, if_neg hm]
      · rw [if_neg hrest, if_neg (fun hc => hrest (hcond.mp hc)), hinner]

/-- **C6 (amended).** A member's task count sums, over exactly the projects
whose member list contains that member, the number of that project's tasks
assigned to the member; tasks in projects that do not list the member are not
counted.  (Member lists duplicate-free, per the data-model invariant.) -/
theorem C6_memberTaskCounts_spec (projects : List Project) (m : String)
    (h : ∀ p ∈ projects, p.members.Nodup) :
    objGet (memberTaskCounts projects) m =
      if ∃ p ∈ projects, m ∈ p.members then
        some ((projects.map
          (fun p => if m ∈ p.members then memberContribution p m else 0)).sum)
      else none := by
  have hgen := memberTaskCounts_fold_objGet m projects [] h
  simpa [memberTaskCounts, objGet] using hgen

/-- Witness for C6 (amended) at the tie fixture and member `"a"`. -/
theorem C6_memberTaskCounts_spec_witness :
    (∀ p ∈ tieProjects, p.members.Nodup) ∧
      objGet (memberTaskCounts tieProjects) "a" =
        (if ∃ p ∈ tieProjects, "a" ∈ p.members then
          some ((tieProjects.map
            (fun p => if "a" ∈ p.members then memberContribution p "a" else 0)).sum)
        else none) :=
  ⟨by decide, C6_memberTaskCounts_spec tieProjects "a" (by decide)⟩

/-- **C6 (counterexample).** Member `"a"` is the assignee of one task overall,
but that task lives in a project that does not list `"a"`, so the computed
count is 0, not the cross-project assignee count 1. -/
theorem C6_member_not_listed_cex :
    objGet (memberTaskCounts splitProjects) "a" = some 0 ∧
      ((splitProjects.flatMap Project.tasks).filter
          (fun t => decide (t.assignee = some "a"))).length = 1 ∧
      objGet (memberTaskCounts splitProjects) "a" ≠
        some (((splitProjects.flatMap Project.tasks).filter
          (fun t => decide (t.assignee = some "a"))).length) := by
  refine ⟨by decide, by decide, by decide⟩

theorem append_singleton_inj {α : Type} {l1 l2 : List α} {a b : α}
    (h : l1 ++ [a] = l2 ++ [b]) : l1 = l2 ∧ a = b := by
  obtain ⟨h1, h2⟩ := List.append_inj' h rfl
  refine ⟨h1, ?_⟩
  injection h2

/-- Characterisation of the JavaScript `reduce` used for `mostActiveMember`:
starting from a seed with no entry, the fold returns a key of maximal value,
and every key strictly after the returned one has a strictly smaller value
(so ties are broken towards the *last* occurrence). -/
theorem foldPick_spec (get : String → Option Nat) (a₀ : String) (h₀ : get a₀ = none) :
    ∀ keys : List String,
      (∀ k ∈ keys, (get k).isSome) → keys.Nodup → a₀ ∉ keys →
      (keys = [] ∧ List.foldl (pickStep get) a₀ keys = a₀) ∨
        (List.foldl (pickStep get) a₀ keys ∈ keys ∧
          (∀ k ∈ keys,
            (get k).getD 0 ≤ (get (List.foldl (pickStep get) a₀ keys)).getD 0) ∧
          (∀ p q, keys = p ++ List.foldl (pickStep get) a₀ keys :: q →
            ∀ x ∈ q,
              (get x).getD 0 < (get (List.foldl (pickStep get) a₀ keys)).getD 0)) := by
  intro keys
  induction keys using List.reverseRecOn with
  | nil => intro _ _ _; exact Or.inl ⟨rfl, rfl⟩
  | append_singleton l k ih =>
    intro hall hnd hna
    have hall2 : ∀ x ∈ l, (get x).isSome := fun x hx => hall x (List.mem_append_left _ hx)
    have hk : (get k).isSome := hall k (by simp)
    have hnd2 : l.Nodup := (List.nodup_append.mp hnd).1
    have hdisj := (List.nodup_append.mp hnd).2.2
    have hkl : k ∉ l := fun hc => hdisj hc (by simp)
    have hna2 : a₀ ∉ l := fun hc => hna (List.mem_append_left _ hc)
    simp only [List.foldl_append, List.foldl_cons, List.foldl_nil]
    rcases ih hall2 hnd2 hna2 with ⟨hlnil, hfold⟩ | ⟨hrmem, hmax, hlast⟩
    · subst hlnil
      rw [hfold]
      have hp : pickStep get a₀ k = k := by
        simp [pickStep, jsGtOpt, h₀]
      rw [hp]
      refine Or.inr ⟨by simp, by simp, ?_⟩
      intro p q heq x hx
      have hlen := congrArg List.length heq
      simp at hlen
      have hq : q = [] := List.length_eq_zero.mp (by omega)
      subst hq
      simp at hx
    · obtain ⟨vr, hvr⟩ := Option.isSome_iff_exists.mp (hall2 _ hrmem)
      obtain ⟨vk, hvk⟩ := Option.isSome_iff_exists.mp hk
      by_cases hgt : vk < vr
      · have hp : pickStep get (List.foldl (pickStep get) a₀ l) k =
            List.foldl (pickStep get) a₀ l := by
          simp [pickStep, jsGtOpt, hvr, hvk, hgt]
        rw [hp]
        refine Or.inr ⟨List.mem_append_left _ hrmem, ?_, ?_⟩
        · intro x hx
          rcases List.mem_append.mp hx with hx | hx
          · exact hmax x hx
          · have hxk : x = k := by simpa using hx
            subst hxk
            rw [hvk, hvr]
            simpa using Nat.le_of_lt hgt
        · intro p q heq x hx
          rcases List.eq_nil_or_concat q with rfl | ⟨q2, y, rfl⟩
          · simp at hx
          · simp only [List.concat_eq_append] at heq hx
            have heq2 : l ++ [k] = (p ++ List.foldl (pickStep get) a₀ l :: q2) ++ [y] := by
              rw [heq]
              simp
            obtain ⟨hl2, hky⟩ := append_singleton_inj heq2
            rcases List.mem_append.mp hx with hx2 | hx2
            · exact hlast p q2 hl2 x hx2
            · have hxk : x = k := by
                have : x = y := by simpa using hx2
                rw [this, ← hky]
              subst hxk
              rw [hvk, hvr]
              simpa using hgt
      · have hp : pickStep get (List.foldl (pickStep get) a₀ l) k = k := by
          simp [pickStep, jsGtOpt, hvr, hvk, hgt]
        rw [hp]
        refine Or.inr ⟨by simp, ?_, ?_⟩
        · intro x hx
          rcases List.mem_append.mp hx with hx | hx
          · calc (get x).getD 0 ≤ (get (List.foldl (pickStep get) a₀ l)).getD 0 :=
                  hmax x hx
              _ ≤ (get k).getD 0 := by
                  rw [hvk, hvr]
                  simpa using Nat.le_of_not_lt hgt
          · have hxk : x = k := by simpa using hx
            subst hxk
            exact Nat.le_refl _
        · intro p q heq x hx
          rcases List.eq_nil_or_concat q with rfl | ⟨q2, y, rfl⟩
          · simp at hx
          · simp only [List.concat_eq_append] at heq hx
            have heq2 : l ++ [k] = (p ++ k :: q2) ++ [y] := by
              rw [heq]
              simp
            obtain ⟨hl2, hky⟩ := append_singleton_inj heq2
            have : k ∈ l := by
              rw [hl2]
              exact List.mem_append_right _ (List.mem_cons_self _ _)
            exact absurd this hkl

/-- **C5 (amended).** For a non-empty count map whose keys are distinct and
do not contain the seed string `"None"`, `mostActive` returns a member with
the highest per-member task count — but when two or more members tie for the
highest count, the member occurring *last* in iteration order is chosen (every
key after the returned one has a strictly smaller count). -/
theorem C5_mostActive_last_tiebreak (counts : List (String × Nat))
    (hnd : (counts.map Prod.fst).Nodup) (hne : counts ≠ [])
    (hnone : "None" ∉ counts.map Prod.fst) :
    mostActive counts ∈ counts.map Prod.fst ∧
      (∀ k ∈ counts.map Prod.fst,
        (objGet counts k).getD 0 ≤ (objGet counts (mostActive counts)).getD 0) ∧
      (∀ p q, counts.map Prod.fst = p ++ mostActive counts :: q →
        ∀ x ∈ q,
          (objGet counts x).getD 0 < (objGet counts (mostActive counts)).getD 0) := by
  have h₀ : objGet counts "None" = none :=
    objGet_eq_none_of_not_mem_keys counts "None" hnone
  have hall : ∀ k ∈ counts.map Prod.fst, (objGet counts k).isSome :=
    fun k hk => objGet_isSome_of_mem_keys counts k hk
  rcases foldPick_spec (objGet counts) "None" h₀ (counts.map Prod.fst) hall hnd hnone with
    ⟨hknil, _⟩ | h
  · exact absurd (List.map_eq_nil_iff.mp hknil) hne
  · exact h

/-- Witness for C5 (amended) at a concrete two-entry count map. -/
theorem C5_mostActive_last_tiebreak_witness :
    ((([("a", 1), ("b", 2)] : List (String × Nat)).map Prod.fst).Nodup ∧
        ([("a", 1), ("b", 2)] : List (String × Nat)) ≠ [] ∧
        "None" ∉ ([("a", 1), ("b", 2)] : List (String × Nat)).map Prod.fst) ∧
      (mostActive [("a", 1), ("b", 2)] ∈
          ([("a", 1), ("b", 2)] : List (String × Nat)).map Prod.fst ∧
        (∀ k ∈ ([("a", 1), ("b", 2)] : List (String × Nat)).map Prod.fst,
          (objGet [("a", 1), ("b", 2)] k).getD 0 ≤
            (objGet [("a", 1), ("b", 2)] (mostActive [("a", 1), ("b", 2)])).getD 0) ∧
        (∀ p q,
          ([("a", 1), ("b", 2)] : List (String × Nat)).map Prod.fst =
            p ++ mostActive [("a", 1), ("b", 2)] :: q →
          ∀ x ∈ q,
            (objGet [("a", 1), ("b", 2)] x).getD 0 <
              (objGet [("a", 1), ("b", 2)] (mostActive [("a", 1), ("b", 2)])).getD 0)) :=
  ⟨⟨by decide, by decide, by decide⟩,
    C5_mostActive_last_tiebreak [("a", 1), ("b", 2)] (by decide) (by decide) (by decide)⟩

/-- **C5 (counterexample).** In the tie fixture, members `"a"` and `"b"` both
have count 1 and `"a"` occurs first in iteration order, yet the analyzer
reports `"b"` — the *last* tied member, not the first. -/
theorem C5_first_occurrence_cex :
    (generateTeamInsights tieProjects).mostActiveMember = "b" ∧
      objGet (memberTaskCounts tieProjects) "a" = some 1 ∧
      objGet (memberTaskCounts tieProjects) "b" = some 1 ∧
      (memberTaskCounts tieProjects).map Prod.fst = ["a", "b"] ∧
      "b" ≠ "a" := by
  refine ⟨by decide, by decide, by decide, by decide, by decide⟩

end SynergySphere
